import Mathlib

/-!
Shallow embedding of the build orchestrator of this repository:
`api/version.go` (version parsing and API-compatibility checks) and
`cmd/lifecycle/builder.go` (the privilege-separated build command).

Go code that this repository calls but that is not part of the two
source files (the `cmd`, `priv`, `launch`, `snapshot` helper packages and
the `lifecycle` build engine) is represented either by abstract outcome
fields of a `World` record or by definitions explicitly marked
`Modelled from the spec:`.
-/

/- ===================== api/version.go ===================== -/

/-- `Version` from `api/version.go`: two unsigned 64-bit components.
Values are Nats; the parser enforces the 64-bit bound exactly where
`strconv.ParseUint(_, 10, 64)` does. -/
structure Version where
  Major : Nat
  Minor : Nat
deriving DecidableEq, Repr

/-- Numeric value of a decimal digit string (the value `strconv.ParseUint`
would compute before its range check). -/
def digitsVal (s : String) : Nat :=
  s.data.foldl (fun a c => a * 10 + (c.toNat - 48)) 0

/-- The exclusive upper bound of a Go `uint64`. -/
def uint64Bound : Nat := 2 ^ 64

/-- `strconv.ParseUint(s, 10, 64)`: fails on an empty string, on a
non-digit character, and on a value that does not fit in 64 bits. -/
def parseUint64 (s : String) : Option Nat :=
  if s.data ≠ [] ∧ s.data.all Char.isDigit then
    if digitsVal s < uint64Bound then some (digitsVal s) else none
  else none

/-- Capture groups of the anchored regex `^v?(\d+)\.?(\d*)$` from
`api/version.go` line 11, applied to the whole string: strips an optional
leading `v`, takes the (greedy, hence maximal) leading digit run as the
major capture, then an optional literal dot, then a digit run as the
minor capture, and requires the end of the string.  Returns the two
captured substrings, `none` when the string does not match. -/
def regexCaptureCore (cs : List Char) : Option (String × String) :=
  if cs.takeWhile Char.isDigit = [] then none
  else match cs.dropWhile Char.isDigit with
    | [] => some ((cs.takeWhile Char.isDigit).asString, "")
    | '.' :: rest2 =>
        if rest2.all Char.isDigit then
          some ((cs.takeWhile Char.isDigit).asString, rest2.asString)
        else none
    | _ => none

/-- The capture function applied after stripping the optional `v`. -/
def regexCapture (s : String) : Option (String × String) :=
  regexCaptureCore (match s.data with
    | 'v' :: rest => rest
    | cs => cs)

/-- Whether the regex `^v?(\d+)\.?(\d*)$` matches the whole input. -/
def matchesVersionRegex (s : String) : Bool :=
  (regexCapture s).isSome

/-- `NewVersion` from `api/version.go`: regex match, then
`ParseUint` of the major capture, then minor defaulting to `0` when its
capture is empty, else `ParseUint` of the minor capture.  `none` is the
error return. -/
def NewVersion (s : String) : Option Version :=
  match regexCapture s with
  | none => none
  | some (majS, minS) =>
    match parseUint64 majS with
    | none => none
    | some major =>
      if minS = "" then some { Major := major, Minor := 0 }
      else
        match parseUint64 minS with
        | none => none
        | some minor => some { Major := major, Minor := minor }

/-- `Version.Compare` from `api/version.go`: major first, then minor. -/
def Version.Compare (v o : Version) : Int :=
  if v.Major < o.Major then -1
  else if o.Major < v.Major then 1
  else if v.Minor < o.Minor then -1
  else if o.Minor < v.Minor then 1
  else 0

/-- `Version.Equal` from `api/version.go`. -/
def Version.Equal (v o : Version) : Bool :=
  v.Compare o == 0

/-- `Version.IsSupersetOf` from `api/version.go`: major 0 demands exact
equality, otherwise equal major and at-least minor. -/
def Version.IsSupersetOf (v o : Version) : Bool :=
  if v.Major = 0 then v.Equal o
  else v.Major == o.Major && decide (o.Minor ≤ v.Minor)

/-- `Version.UnmarshalText` from `api/version.go`, as a state-passing
function on the receiver: the Bool is `true` on success (fields
assigned from the parse result) and `false` on the error return, which
happens before either field assignment, leaving the receiver unchanged. -/
def Version.UnmarshalText (v : Version) (text : String) : Version × Bool :=
  match NewVersion text with
  | none => (v, false)
  | some parsed => ({ v with Major := parsed.Major, Minor := parsed.Minor }, true)

example : NewVersion "v1" = some { Major := 1, Minor := 0 } := by decide
example : NewVersion "1.2" = some { Major := 1, Minor := 2 } := by decide
example : NewVersion "1.2.3" = none := by decide
example : NewVersion "" = none := by decide
example : Version.IsSupersetOf ⟨0, 1⟩ ⟨0, 2⟩ = false := by decide
example : Version.IsSupersetOf ⟨1, 5⟩ ⟨1, 3⟩ = true := by decide

/- ===================== cmd/lifecycle/builder.go: data model ===================== -/

/-- One buildpack descriptor of a group, with its declared API version
(already parsed; the group files carry it as a version string). -/
structure Buildpack where
  id : String
  api : Version
deriving DecidableEq, Repr

/-- `lifecycle.BuildpackGroup`: an ordered list of buildpack descriptors. -/
structure BuildpackGroup where
  Group : List Buildpack
deriving DecidableEq, Repr

/-- `lifecycle.BuildPlan`: a document the orchestrator passes through
without interpreting. -/
structure BuildPlan where
  raw : String
deriving DecidableEq, Repr

/-- The metadata record returned by a successful `builder.Build()`. -/
structure BuildMetadata where
  raw : String
deriving DecidableEq, Repr

/-- The type tag of a `lifecycle.Error`: `builder.go` only distinguishes
`ErrTypeBuildpack` from every other tag. -/
inductive ErrType where
  | buildpack
  | otherType
deriving DecidableEq, Repr

/-- A Go error as `builder.go` observes it: either a typed
`*lifecycle.Error` carrying its cause, or any other error value. -/
inductive GoErr where
  | lifecycleErr (t : ErrType) (cause : String)
  | plainErr (msg : String)
deriving DecidableEq, Repr

/-- Message used when an error is wrapped without the
`lifecycle.Error`-cause extraction. -/
def GoErr.msg : GoErr → String
  | .lifecycleErr _ c => c
  | .plainErr m => m

/-- Modelled from the spec: the distinct, stable exit-code
classifications listed in the external-interface section — invalid
arguments (version incompatibility), plugin-reported build failure
(`CodeFailedBuildWithErrors`), infrastructure build error
(`CodeBuildError`).  Their numeric values live in the `cmd` package,
which is not among the source files; only their distinctness is used. -/
inductive ExitCode where
  | codeInvalidArgs
  | codeFailedBuildWithErrors
  | codeBuildError
deriving DecidableEq, Repr

/-- The failure value a command returns to its harness:
`cmd.FailErr` (generic failure with a message), `cmd.FailErrCode`
(classified failure with an exit code, a cause and the failing action),
an error returned without wrapping, or a Go panic
(`api.MustParse` on a bad platform API string). -/
inductive Failure where
  | failErr (msg : String)
  | failErrCode (code : ExitCode) (cause : String) (action : String)
  | rawErr (e : GoErr)
  | panicked (msg : String)
deriving DecidableEq, Repr

/-- Observable side effects of one build invocation, in order:
`stackBuildRun` is the privileged `builder.StackBuild()` call,
`appBuildRun` the in-process `builder.Build()` call,
`subProcess` the launch of the child builder with the credential bound
to it, `privDrop` the in-process `priv.RunAs` drop, `setEnv` the
`priv.SetEnvironmentForUser` call, `writeMetadata` the metadata write. -/
inductive Event where
  | stackBuildRun
  | appBuildRun
  | subProcess (uid gid : Nat)
  | privDrop (uid gid : Nat)
  | setEnv (uid : Nat)
  | writeMetadata (path : String)
deriving DecidableEq, Repr

/-- State of a group file as `readData` observes it: `absent` is an
`os.Stat` error (the file is skipped and the group left empty),
`malformed` a file that is present but fails to parse, `present` a
well-formed group. -/
inductive FileRead where
  | absent
  | malformed
  | present (g : BuildpackGroup)
deriving DecidableEq, Repr

/-- The environment of one invocation: everything the two source files
obtain from the packages outside them, as fixed outcomes.  `planFile`
is `none` when `toml.DecodeFile` fails (the plan file is missing or
unparseable).  For the `Option GoErr` fields, `none` means the call
succeeds.  `supportedAPI` is the platform's supported buildpack API
that the version gate compares declared APIs against. -/
structure World where
  supportedAPI : Version
  isPrivileged : Bool
  groupFile : FileRead
  stackGroupFile : FileRead
  planFile : Option BuildPlan
  snapshotterRes : Option GoErr
  stackBuildRes : Option GoErr
  buildRes : Except GoErr BuildMetadata
  executableRes : Option GoErr
  subProcessRes : Option GoErr
  runAsRes : Option GoErr
  setEnvRes : Option GoErr
  writeRes : Option GoErr
deriving Repr

/-- `buildArgs` from `cmd/lifecycle/builder.go`. -/
structure buildArgs where
  uid : Nat
  gid : Nat
  groupPath : String
  planPath : String
  buildpacksDir : String
  layersDir : String
  appDir : String
  platformDir : String
  platformAPI : String
deriving DecidableEq, Repr

/-- `buildCmd` from `cmd/lifecycle/builder.go`: `buildArgs` plus the
stack group path. -/
structure buildCmd extends buildArgs where
  stackGroupPath : String
deriving DecidableEq, Repr

/-- `lifecycle.Builder` as `createBuilder` fills it in (only the fields
the embedded claims inspect). -/
structure Builder where
  group : BuildpackGroup
  stackGroup : BuildpackGroup
  plan : BuildPlan
  platformAPI : Version
deriving DecidableEq, Repr

/- ===================== cmd/lifecycle/builder.go: operations ===================== -/

/-- Modelled from the spec: `launch.GetMetadataFilePath` (the `launch`
package is not among the source files) — the fixed, well-known metadata
path under the layers directory. -/
def GetMetadataFilePath (layersDir : String) : String :=
  layersDir ++ "/config/metadata.toml"

/-- Modelled from the spec: `verifyBuildpackApis` (defined in the
repository's command package outside the source files) — runs the
version gate over every plugin of a group: a plugin whose declared API
is not a subset of the platform's supported API aborts with the
invalid-arguments classification. -/
def verifyBuildpackApis (supported : Version) (g : BuildpackGroup) : Except Failure Unit :=
  match g.Group.find? (fun bp => !(supported.IsSupersetOf bp.api)) with
  | some bp => .error (.failErrCode .codeInvalidArgs bp.id "verify buildpack apis")
  | none => .ok ()

/-- `buildCmd.readData` from `cmd/lifecycle/builder.go`: app group and
stack group are each skipped (left empty) when `os.Stat` fails and are
a wrapped error when present but unreadable; the plan is decoded
unconditionally and any decode failure (including a missing file) is a
wrapped error. -/
def readData (w : World) : Except Failure (BuildpackGroup × BuildpackGroup × BuildPlan) :=
  match w.groupFile with
  | .malformed => .error (.failErr "read buildpack group")
  | gf =>
    let group : BuildpackGroup := match gf with
      | .present g => g
      | _ => ⟨[]⟩
    match w.stackGroupFile with
    | .malformed => .error (.failErr "read stack buildpack group")
    | sgf =>
      let stackGroup : BuildpackGroup := match sgf with
        | .present g => g
        | _ => ⟨[]⟩
      match w.planFile with
      | none => .error (.failErr "parse detect plan")
      | some plan => .ok (group, stackGroup, plan)

/-- `buildCmd.Privileges` from `cmd/lifecycle/builder.go`: refuses to
run as root when there are no stack buildpacks. -/
def Privileges (w : World) : Except Failure Unit :=
  match readData w with
  | .error f => .error f
  | .ok (_, stackGroup, _) =>
    if stackGroup.Group.length = 0 ∧ w.isPrivileged then
      .error (.failErr "refusing to run as root")
    else .ok ()

/-- `buildArgs.createBuilder` from `cmd/lifecycle/builder.go`: the
Kaniko snapshotter may fail (error returned unwrapped); the platform
API string goes through `api.MustParse`, which panics on a bad string. -/
def createBuilder (ba : buildArgs) (group stackGroup : BuildpackGroup) (plan : BuildPlan)
    (w : World) : Except Failure Builder :=
  match w.snapshotterRes with
  | some e => .error (.rawErr e)
  | none =>
    match NewVersion ba.platformAPI with
    | none => .error (.panicked ba.platformAPI)
    | some v => .ok { group := group, stackGroup := stackGroup, plan := plan, platformAPI := v }

/-- The duplicated error-classification block of `stackBuild` and
`build`: a `*lifecycle.Error` of type `ErrTypeBuildpack` becomes
`CodeFailedBuildWithErrors` with the error's cause, anything else
becomes `CodeBuildError`. -/
def classifyBuildErr (e : GoErr) (action : String) : Failure :=
  match e with
  | .lifecycleErr .buildpack c => .failErrCode .codeFailedBuildWithErrors c action
  | e => .failErrCode .codeBuildError e.msg action

/-- `buildArgs.stackBuild` from `cmd/lifecycle/builder.go`: runs
`builder.StackBuild()` (as root) and classifies its error. -/
def stackBuild (w : World) : List Event × Except Failure Unit :=
  ([.stackBuildRun],
    match w.stackBuildRes with
    | none => .ok ()
    | some e => .error (classifyBuildErr e "stack-build"))

/-- `buildArgs.buildAsSubProcess` from `cmd/lifecycle/builder.go`:
locates the current executable (error returned unwrapped), then runs a
child `builder` binary with the unprivileged credential bound to it;
`uint32(ba.uid)` and `uint32(ba.gid)` truncate to 32 bits. -/
def buildAsSubProcess (ba : buildArgs) (w : World) : List Event × Except Failure Unit :=
  match w.executableRes with
  | some e => ([], .error (.rawErr e))
  | none =>
    ([.subProcess (ba.uid % 2 ^ 32) (ba.gid % 2 ^ 32)],
      match w.subProcessRes with
      | none => .ok ()
      | some e => .error (.rawErr e))

/-- `buildArgs.build` from `cmd/lifecycle/builder.go`: drops to the
unprivileged uid/gid in-process, loads that user's environment, runs
`builder.Build()`, classifies its error, and writes the metadata to the
fixed path on success.  (In this repository no path of `builder.go`
calls it; see the theorems on `Exec`.) -/
def build (ba : buildArgs) (w : World) : List Event × Except Failure Unit :=
  let e1 : List Event := [.privDrop ba.uid ba.gid]
  match w.runAsRes with
  | some _ => (e1, .error (.failErr "exec as user"))
  | none =>
    let e2 := e1 ++ [Event.setEnv ba.uid]
    match w.setEnvRes with
    | some _ => (e2, .error (.failErr "set environment for user"))
    | none =>
      let e3 := e2 ++ [Event.appBuildRun]
      match w.buildRes with
      | .error err => (e3, .error (classifyBuildErr err "build"))
      | .ok _ =>
        let e4 := e3 ++ [Event.writeMetadata (GetMetadataFilePath ba.layersDir)]
        match w.writeRes with
        | some _ => (e4, .error (.failErr "write build metadata"))
        | none => (e4, .ok ())

/-- `buildArgs.buildAll` from `cmd/lifecycle/builder.go`: verify both
groups, create the builder, run the stack build, then (only when the
app group is non-empty) delegate to the unprivileged subprocess. -/
def buildAll (ba : buildArgs) (group stackGroup : BuildpackGroup) (plan : BuildPlan)
    (w : World) : List Event × Except Failure Unit :=
  match verifyBuildpackApis w.supportedAPI group with
  | .error f => ([], .error f)
  | .ok () =>
    match verifyBuildpackApis w.supportedAPI stackGroup with
    | .error f => ([], .error f)
    | .ok () =>
      match createBuilder ba group stackGroup plan w with
      | .error f => ([], .error f)
      | .ok _ =>
        let (ev, r) := stackBuild w
        match r with
        | .error f => (ev, .error f)
        | .ok () =>
          if group.Group.length > 0 then
            let (ev2, r2) := buildAsSubProcess ba w
            (ev ++ ev2, r2)
          else (ev, .ok ())

/-- `buildCmd.Exec` from `cmd/lifecycle/builder.go`: with a non-empty
stack group, run `buildAll`; otherwise delegate straight to the
unprivileged subprocess. -/
def Exec (b : buildCmd) (w : World) : List Event × Except Failure Unit :=
  match readData w with
  | .error f => ([], .error f)
  | .ok (group, stackGroup, plan) =>
    if stackGroup.Group.length > 0 then
      buildAll b.tobuildArgs group stackGroup plan w
    else
      buildAsSubProcess b.tobuildArgs w

/-- Modelled from the spec: the command harness runs the privilege
check before `Exec` (the harness lives in the `cmd` package outside the
source files; the spec requires the privilege guard to fire before any
stage runs).  A `Privileges` failure ends the invocation with no
events. -/
def run (b : buildCmd) (w : World) : List Event × Except Failure Unit :=
  match Privileges w with
  | .error f => ([], .error f)
  | .ok () => Exec b w

/- ===================== helper lemmas ===================== -/

lemma string_data_eq_nil_iff (s : String) : s.data = [] ↔ s = "" := by
  constructor
  · intro h; cases s; simp_all
  · intro h; subst h; rfl

lemma all_takeWhile_self (p : Char → Bool) (l : List Char) :
    (l.takeWhile p).all p = true := by
  rw [List.all_eq_true]
  intro x hx
  exact List.mem_takeWhile_imp hx

lemma version_equal_iff (v o : Version) :
    v.Equal o = true ↔ v.Major = o.Major ∧ v.Minor = o.Minor := by
  unfold Version.Equal Version.Compare
  split_ifs <;> simp <;> omega

/-- Every capture produced by the version regex consists of digit
strings, with the major capture non-empty. -/
lemma regexCaptureCore_some {cs : List Char} {a b : String}
    (h : regexCaptureCore cs = some (a, b)) :
    a.data ≠ [] ∧ a.data.all Char.isDigit = true ∧ b.data.all Char.isDigit = true := by
  unfold regexCaptureCore at h
  split at h
  · simp at h
  · rename_i hmaj
    split at h
    · injection h with h'
      rw [Prod.mk.injEq] at h'
      obtain ⟨h1, h2⟩ := h'
      subst h1; subst h2
      exact ⟨hmaj, all_takeWhile_self _ _, by decide⟩
    · split at h
      · rename_i rest2 _ hdig
        injection h with h'
        rw [Prod.mk.injEq] at h'
        obtain ⟨h1, h2⟩ := h'
        subst h1; subst h2
        exact ⟨hmaj, all_takeWhile_self _ _, hdig⟩
      · simp at h
    · simp at h

/-- The same fact through the `v`-stripping wrapper. -/
lemma regexCapture_some {s a b : String} (h : regexCapture s = some (a, b)) :
    a.data ≠ [] ∧ a.data.all Char.isDigit = true ∧ b.data.all Char.isDigit = true :=
  regexCaptureCore_some h

/-- Follows the amended claim's words: the input matches the version
regex and each captured numeric component fits in 64 bits (an absent
minor segment is exempt). -/
def versionValuesFit (s : String) : Bool :=
  match regexCapture s with
  | none => false
  | some (majS, minS) =>
      decide (digitsVal majS < uint64Bound) &&
        (decide (minS = "") || decide (digitsVal minS < uint64Bound))

lemma newVersion_isSome_eq (s : String) :
    (NewVersion s).isSome = (matchesVersionRegex s && versionValuesFit s) := by
  unfold NewVersion matchesVersionRegex versionValuesFit
  rcases h : regexCapture s with _ | ⟨a, b⟩
  · simp
  · obtain ⟨hane, hadig, hbdig⟩ := regexCapture_some h
    dsimp only
    have ha' : parseUint64 a
        = if digitsVal a < uint64Bound then some (digitsVal a) else none := by
      unfold parseUint64
      rw [if_pos ⟨hane, hadig⟩]
    by_cases hlt : digitsVal a < uint64Bound
    · rw [if_pos hlt] at ha'
      rw [ha']
      by_cases hb : b = ""
      · subst hb; simp [hlt]
      · have hbne : b.data ≠ [] := fun hc => hb ((string_data_eq_nil_iff b).mp hc)
        have hb' : parseUint64 b
            = if digitsVal b < uint64Bound then some (digitsVal b) else none := by
          unfold parseUint64
          rw [if_pos ⟨hbne, hbdig⟩]
        rw [hb']
        by_cases hlt2 : digitsVal b < uint64Bound
        · rw [if_pos hlt2]; simp [hlt, hlt2, hb]
        · rw [if_neg hlt2]; simp [hlt, hlt2, hb]
    · rw [if_neg hlt] at ha'
      rw [ha']
      simp [hlt]

/-- C8 (amended): `NewVersion` succeeds exactly on the strings matched
by the regex `^v?(\d+)\.?(\d*)$` whose captured major (and, when the
minor segment carries digits, minor) value fits in 64 bits; on the
claim's listed inputs it behaves exactly as the claim states, with a
missing minor defaulting to 0. -/
theorem c8_parse_amended :
    (∀ s, (NewVersion s).isSome = (matchesVersionRegex s && versionValuesFit s))
    ∧ NewVersion "v1" = some ⟨1, 0⟩
    ∧ NewVersion "1" = some ⟨1, 0⟩
    ∧ NewVersion "1.2" = some ⟨1, 2⟩
    ∧ NewVersion "v1.2" = some ⟨1, 2⟩
    ∧ NewVersion "1.2.3" = none
    ∧ NewVersion "abc" = none
    ∧ NewVersion "" = none :=
  ⟨newVersion_isSome_eq, by decide, by decide, by decide, by decide,
    by decide, by decide, by decide⟩

/-- C8 (counterexample): the decimal string for `2^64` matches the
version regex, yet `NewVersion` fails on it (the `ParseUint` range
check), so parsing does not succeed on every string matching the
regex. -/
theorem c8_parse_counterexample :
    matchesVersionRegex "18446744073709551616" = true
    ∧ NewVersion "18446744073709551616" = none := by decide

/-- C7: `IsSupersetOf` returns true iff the supported version has major
zero and equals the required version exactly, or has the same non-zero
major and an at-least-as-large minor; the claim's five concrete cases
evaluate as it states. -/
theorem c7_isSupersetOf_characterisation :
    (∀ s r : Version, s.IsSupersetOf r = true ↔
      ((s.Major = 0 ∧ s.Major = r.Major ∧ s.Minor = r.Minor) ∨
        (s.Major ≠ 0 ∧ s.Major = r.Major ∧ r.Minor ≤ s.Minor)))
    ∧ Version.IsSupersetOf ⟨0, 0⟩ ⟨0, 0⟩ = true
    ∧ Version.IsSupersetOf ⟨0, 1⟩ ⟨0, 2⟩ = false
    ∧ Version.IsSupersetOf ⟨1, 5⟩ ⟨1, 3⟩ = true
    ∧ Version.IsSupersetOf ⟨1, 3⟩ ⟨1, 5⟩ = false
    ∧ Version.IsSupersetOf ⟨2, 0⟩ ⟨1, 0⟩ = false := by
  refine ⟨?_, by decide, by decide, by decide, by decide, by decide⟩
  intro s r
  unfold Version.IsSupersetOf
  by_cases h : s.Major = 0
  · rw [if_pos h, version_equal_iff]
    constructor
    · intro hv; exact Or.inl ⟨h, hv.1, hv.2⟩
    · rintro (⟨_, h1, h2⟩ | ⟨hne, _, _⟩)
      · exact ⟨h1, h2⟩
      · exact absurd h hne
  · rw [if_neg h]
    simp only [Bool.and_eq_true, beq_iff_eq, decide_eq_true_eq]
    constructor
    · intro hv; exact Or.inr ⟨h, hv.1, hv.2⟩
    · rintro (⟨h0, _, _⟩ | ⟨_, h1, h2⟩)
      · exact absurd h0 h
      · exact ⟨h1, h2⟩

/-- C10: when `UnmarshalText` fails, the receiver's `Major` and `Minor`
are left unchanged (the input did not parse); when it succeeds, the
receiver holds exactly the version `NewVersion` produces for the
text. -/
theorem c10_unmarshalText_state (v : Version) (text : String) :
    ((Version.UnmarshalText v text).2 = false →
      (Version.UnmarshalText v text).1 = v ∧ NewVersion text = none)
    ∧ ((Version.UnmarshalText v text).2 = true →
      NewVersion text = some (Version.UnmarshalText v text).1) := by
  unfold Version.UnmarshalText
  rcases h : NewVersion text with _ | p
  · simp
  · simp

/-- C10 witness: concrete failing and succeeding inputs. -/
theorem c10_unmarshalText_state_witness :
    ((Version.UnmarshalText ⟨3, 4⟩ "abc").1 = ⟨3, 4⟩ ∧ NewVersion "abc" = none)
    ∧ NewVersion "1.2" = some (Version.UnmarshalText ⟨3, 4⟩ "1.2").1 :=
  ⟨(c10_unmarshalText_state ⟨3, 4⟩ "abc").1 (by decide),
    (c10_unmarshalText_state ⟨3, 4⟩ "1.2").2 (by decide)⟩

/- ===================== builder-level predicates ===================== -/

/-- Events that execute app plugins: the in-process `builder.Build()`
run and the unprivileged subprocess delegate. -/
def isAppPluginEvent : Event → Bool
  | .appBuildRun => true
  | .subProcess _ _ => true
  | _ => false

/-- The in-process privilege drop (`priv.RunAs`). -/
def isPrivDropEvent : Event → Bool
  | .privDrop _ _ => true
  | _ => false

/-- Whether a failure carries the invalid-arguments classification. -/
def Failure.isInvalidArgs : Failure → Bool
  | .failErrCode .codeInvalidArgs _ _ => true
  | _ => false

lemma verifyBuildpackApis_error_isInvalidArgs {sup : Version} {g : BuildpackGroup}
    {f : Failure} (h : verifyBuildpackApis sup g = .error f) :
    f.isInvalidArgs = true := by
  unfold verifyBuildpackApis at h
  split at h
  · injection h with h'
    subst h'
    rfl
  · simp at h

/- ===================== C9: readData ===================== -/

/-- C9: a group file absent at either group path yields an empty group
and no error; a present-but-malformed group file is an error; a missing
or unparseable plan always fails the whole read. -/
theorem c9_readData_optionality (w : World) :
    (∀ p, w.planFile = some p → w.groupFile = .absent → w.stackGroupFile = .absent →
      readData w = .ok (⟨[]⟩, ⟨[]⟩, p))
    ∧ (w.groupFile = .malformed →
      readData w = .error (.failErr "read buildpack group"))
    ∧ (w.groupFile ≠ .malformed → w.stackGroupFile = .malformed →
      readData w = .error (.failErr "read stack buildpack group"))
    ∧ (w.planFile = none → ∃ f, readData w = .error f) := by
  refine ⟨?_, ?_, ?_, ?_⟩
  · intro p hp hg hs
    unfold readData
    rw [hg, hs, hp]
  · intro hg
    unfold readData
    rw [hg]
  · intro hg hs
    unfold readData
    rcases hgf : w.groupFile with _ | _ | g
    · rw [hs]
    · exact absurd hgf hg
    · rw [hs]
  · intro hp
    unfold readData
    rcases hgf : w.groupFile with _ | _ | g
    · rcases hsf : w.stackGroupFile with _ | _ | sg <;> rw [hp] <;> exact ⟨_, rfl⟩
    · exact ⟨_, rfl⟩
    · rcases hsf : w.stackGroupFile with _ | _ | sg <;> rw [hp] <;> exact ⟨_, rfl⟩

/-- A fully healthy environment used by several witnesses. -/
def okWorld : World :=
  { supportedAPI := ⟨0, 4⟩
    isPrivileged := false
    groupFile := .present ⟨[{ id := "app-bp", api := ⟨0, 4⟩ }]⟩
    stackGroupFile := .present ⟨[{ id := "stack-bp", api := ⟨0, 4⟩ }]⟩
    planFile := some ⟨"plan"⟩
    snapshotterRes := none
    stackBuildRes := none
    buildRes := .ok ⟨"md"⟩
    executableRes := none
    subProcessRes := none
    runAsRes := none
    setEnvRes := none
    writeRes := none }

/-- A concrete command-line configuration used by several witnesses. -/
def okCmd : buildCmd :=
  { uid := 1000
    gid := 1000
    groupPath := "group.toml"
    planPath := "plan.toml"
    buildpacksDir := "buildpacks"
    layersDir := "layers"
    appDir := "app"
    platformDir := "platform"
    platformAPI := "0.4"
    stackGroupPath := "stack-group.toml" }

/-- C9 witness: with both group files absent and a readable plan, the
read succeeds with two empty groups; with a malformed app group file it
fails; with a missing plan it fails. -/
theorem c9_readData_optionality_witness :
    readData { okWorld with groupFile := .absent, stackGroupFile := .absent }
      = .ok (⟨[]⟩, ⟨[]⟩, ⟨"plan"⟩)
    ∧ readData { okWorld with groupFile := .malformed }
      = .error (.failErr "read buildpack group")
    ∧ (∃ f, readData { okWorld with planFile := none } = .error f) :=
  ⟨(c9_readData_optionality _).1 ⟨"plan"⟩ rfl rfl rfl,
    (c9_readData_optionality _).2.1 rfl,
    (c9_readData_optionality _).2.2.2 rfl⟩

/- ===================== C3: privilege guard ===================== -/

/-- C3: when the loaded stack group is empty and the process is
privileged, the invocation fails with the refusing-to-run-as-root
policy error and performs no side effect at all (in particular zero
plugin executions). -/
theorem c3_empty_stack_privileged_guard (b : buildCmd) (w : World)
    (g sg : BuildpackGroup) (p : BuildPlan)
    (hread : readData w = .ok (g, sg, p)) (hsg : sg.Group = [])
    (hpriv : w.isPrivileged = true) :
    run b w = ([], .error (.failErr "refusing to run as root")) := by
  unfold run Privileges
  rw [hread]
  dsimp only
  rw [hsg, hpriv]
  simp

/-- C3 witness: a concrete privileged invocation with an absent stack
group file is refused with no events. -/
theorem c3_empty_stack_privileged_guard_witness :
    run okCmd { okWorld with stackGroupFile := .absent, isPrivileged := true }
      = ([], .error (.failErr "refusing to run as root")) :=
  c3_empty_stack_privileged_guard okCmd _ ⟨[{ id := "app-bp", api := ⟨0, 4⟩ }]⟩ ⟨[]⟩
    ⟨"plan"⟩ rfl rfl rfl

/- ===================== small unfolding lemmas ===================== -/

lemma stackBuild_none {w : World} (h : w.stackBuildRes = none) :
    stackBuild w = ([.stackBuildRun], .ok ()) := by
  unfold stackBuild
  rw [h]

lemma stackBuild_some {w : World} {e : GoErr} (h : w.stackBuildRes = some e) :
    stackBuild w = ([.stackBuildRun], .error (classifyBuildErr e "stack-build")) := by
  unfold stackBuild
  rw [h]

lemma privileges_ok_of_nonempty_stack {w : World} {g sg : BuildpackGroup} {p : BuildPlan}
    (hread : readData w = .ok (g, sg, p)) (hsg : sg.Group ≠ []) :
    Privileges w = .ok () := by
  unfold Privileges
  rw [hread]
  dsimp only
  have hc : ¬(sg.Group.length = 0 ∧ w.isPrivileged = true) := by
    rintro ⟨h0, _⟩
    exact hsg (List.length_eq_zero.mp h0)
  rw [if_neg hc]

lemma exec_nonempty_stack {b : buildCmd} {w : World} {g sg : BuildpackGroup} {p : BuildPlan}
    (hread : readData w = .ok (g, sg, p)) (hsg : sg.Group ≠ []) :
    Exec b w = buildAll b.tobuildArgs g sg p w := by
  unfold Exec
  rw [hread]
  dsimp only
  rw [if_pos (List.length_pos.mpr hsg)]

/- ===================== C1: version gate ===================== -/

/-- C1 (amended): on the non-empty-stack path, an API incompatibility
in either group aborts the whole invocation with the invalid-arguments
classification before any build step, with no side effects. -/
theorem c1_version_gate_nonempty_stack (b : buildCmd) (w : World)
    (g sg : BuildpackGroup) (p : BuildPlan) (f : Failure)
    (hread : readData w = .ok (g, sg, p)) (hsg : sg.Group ≠ [])
    (hver : verifyBuildpackApis w.supportedAPI g = .error f ∨
      (verifyBuildpackApis w.supportedAPI g = .ok () ∧
        verifyBuildpackApis w.supportedAPI sg = .error f)) :
    run b w = ([], .error f) ∧ f.isInvalidArgs = true := by
  constructor
  · unfold run
    rw [privileges_ok_of_nonempty_stack hread hsg]
    dsimp only
    rw [exec_nonempty_stack hread hsg]
    unfold buildAll
    rcases hver with hv | ⟨hv1, hv2⟩
    · rw [hv]
    · rw [hv1]
      dsimp only
      rw [hv2]
  · rcases hver with hv | ⟨_, hv2⟩
    · exact verifyBuildpackApis_error_isInvalidArgs hv
    · exact verifyBuildpackApis_error_isInvalidArgs hv2

/-- The environment of the C1 witness: the stack group declares an API
the platform does not support. -/
def gateWorld : World :=
  { okWorld with
      supportedAPI := ⟨1, 0⟩
      groupFile := .present ⟨[]⟩
      stackGroupFile := .present ⟨[{ id := "stack-bp", api := ⟨2, 0⟩ }]⟩ }

/-- C1 witness: a concrete non-empty-stack invocation with an
incompatible stack plugin aborts with the invalid-arguments
classification and an empty trace. -/
theorem c1_version_gate_nonempty_stack_witness :
    run okCmd gateWorld
      = ([], .error (.failErrCode .codeInvalidArgs "stack-bp" "verify buildpack apis"))
    ∧ (Failure.failErrCode .codeInvalidArgs "stack-bp"
        "verify buildpack apis").isInvalidArgs = true :=
  c1_version_gate_nonempty_stack okCmd gateWorld ⟨[]⟩
    ⟨[{ id := "stack-bp", api := ⟨2, 0⟩ }]⟩ ⟨"plan"⟩ _ rfl (by simp) (Or.inr ⟨rfl, rfl⟩)

/-- The environment of the C1 counterexample: the stack group is empty
and the app group declares an API the platform does not support. -/
def gateBypassWorld : World :=
  { okWorld with
      supportedAPI := ⟨1, 0⟩
      groupFile := .present ⟨[{ id := "app-bp-incompat", api := ⟨2, 0⟩ }]⟩
      stackGroupFile := .absent }

/-- C1 (counterexample): with an empty stack group the version gate is
never consulted — the invocation loads an app plugin whose declared API
is incompatible with the platform's, yet it does not abort with the
invalid-arguments classification; it launches the subprocess delegate
and succeeds. -/
theorem c1_version_gate_counterexample :
    Version.IsSupersetOf ⟨1, 0⟩ ⟨2, 0⟩ = false
    ∧ readData gateBypassWorld
      = .ok (⟨[{ id := "app-bp-incompat", api := ⟨2, 0⟩ }]⟩, ⟨[]⟩, ⟨"plan"⟩)
    ∧ run okCmd gateBypassWorld = ([Event.subProcess 1000 1000], .ok ()) :=
  ⟨by decide, rfl, rfl⟩

/- ===================== C2: the empty-stack path ===================== -/

/-- The environment of the C2 divergence: empty stack group,
non-elevated privilege, one compatible app plugin, every external call
healthy. -/
def emptyStackWorld : World :=
  { okWorld with stackGroupFile := .absent }

/-- C2 (divergence): on the empty-stack, non-privileged path the
command does not drop privileges in-process, does not run the app
group in-process and writes no metadata — it only re-launches its own
`builder` binary as a subprocess.  The in-process behavior the claim
describes exists in the repository as `buildArgs.build`, which no path
of `builder.go` calls: on the same environment it would drop to the
configured uid/gid, load the user environment, run the app group and
write the metadata file. -/
theorem c2_empty_stack_no_inprocess_drop :
    run okCmd emptyStackWorld = ([Event.subProcess 1000 1000], .ok ())
    ∧ (run okCmd emptyStackWorld).1.filter isPrivDropEvent = []
    ∧ (run okCmd emptyStackWorld).1.filter (fun e => e == Event.appBuildRun) = []
    ∧ build okCmd.tobuildArgs emptyStackWorld
      = ([Event.privDrop 1000 1000, Event.setEnv 1000, Event.appBuildRun,
          Event.writeMetadata "layers/config/metadata.toml"], .ok ()) :=
  ⟨rfl, rfl, rfl, rfl⟩

/- ===================== C4: stack stage runs first ===================== -/

/-- C4: on the non-empty-stack path, if any app plugin executes (in
process or as the subprocess delegate) the trace begins with the
completed privileged stack build; and whenever the stack build's
outcome is a failure, zero app-plugin invocations occur and the
operation ends in an error. -/
theorem c4_stack_precedes_app (b : buildCmd) (w : World)
    (g sg : BuildpackGroup) (p : BuildPlan)
    (hread : readData w = .ok (g, sg, p)) (hsg : sg.Group ≠ []) :
    ((Exec b w).1.filter isAppPluginEvent ≠ [] →
      (Exec b w).1.head? = some Event.stackBuildRun)
    ∧ (w.stackBuildRes ≠ none →
      (Exec b w).1.filter isAppPluginEvent = [] ∧ (Exec b w).2 ≠ .ok ()) := by
  rw [exec_nonempty_stack hread hsg]
  unfold buildAll
  rcases h1 : verifyBuildpackApis w.supportedAPI g with f1 | u
  · exact ⟨fun hc => absurd rfl hc, fun _ => ⟨rfl, by simp⟩⟩
  · cases u
    dsimp only
    rcases h2 : verifyBuildpackApis w.supportedAPI sg with f2 | u2
    · exact ⟨fun hc => absurd rfl hc, fun _ => ⟨rfl, by simp⟩⟩
    · cases u2
      dsimp only
      rcases h3 : createBuilder b.tobuildArgs g sg p w with f3 | bd
      · exact ⟨fun hc => absurd rfl hc, fun _ => ⟨rfl, by simp⟩⟩
      · dsimp only
        rcases h4 : w.stackBuildRes with _ | e
        · rw [stackBuild_none h4]
          dsimp only
          by_cases h5 : g.Group.length > 0
          · rw [if_pos h5]
            unfold buildAsSubProcess
            rcases h6 : w.executableRes with _ | e6
            · exact ⟨fun _ => rfl, fun hne => absurd rfl hne⟩
            · exact ⟨fun _ => rfl, fun hne => absurd rfl hne⟩
          · rw [if_neg h5]
            exact ⟨fun _ => rfl, fun hne => absurd rfl hne⟩
        · rw [stackBuild_some h4]
          dsimp only
          refine ⟨fun _ => rfl, fun _ => ⟨?_, by simp⟩⟩
          simp [isAppPluginEvent]

/-- C4 witness: a concrete invocation whose stack build reports a
plugin failure performs the stack stage and nothing else. -/
theorem c4_stack_precedes_app_witness :
    ((Exec okCmd { okWorld with
        stackBuildRes := some (.lifecycleErr .buildpack "boom") }).1.filter
          isAppPluginEvent ≠ [] →
      (Exec okCmd { okWorld with
        stackBuildRes := some (.lifecycleErr .buildpack "boom") }).1.head?
        = some Event.stackBuildRun)
    ∧ ({ okWorld with
          stackBuildRes := some (.lifecycleErr .buildpack "boom") : World }.stackBuildRes
            ≠ none →
      (Exec okCmd { okWorld with
        stackBuildRes := some (.lifecycleErr .buildpack "boom") }).1.filter
          isAppPluginEvent = []
      ∧ (Exec okCmd { okWorld with
          stackBuildRes := some (.lifecycleErr .buildpack "boom") }).2 ≠ .ok ()) :=
  c4_stack_precedes_app okCmd _ ⟨[{ id := "app-bp", api := ⟨0, 4⟩ }]⟩
    ⟨[{ id := "stack-bp", api := ⟨0, 4⟩ }]⟩ ⟨"plan"⟩ rfl (by simp)

/- ===================== C5: exactly one delegate after stack success ===================== -/

/-- C5: with both groups non-empty, a successful stack build, a
locatable executable and uid/gid values that fit in 32 bits, the
invocation's app-plugin activity is exactly one subprocess delegate
launch carrying the configured unprivileged credential, and the parent
performs no in-process privilege drop. -/
theorem c5_delegate_exactly_once (b : buildCmd) (w : World)
    (g sg : BuildpackGroup) (p : BuildPlan)
    (hread : readData w = .ok (g, sg, p))
    (hsg : sg.Group ≠ []) (hg : g.Group ≠ [])
    (hstack : w.stackBuildRes = none)
    (hexe : w.executableRes = none)
    (hreach : Event.stackBuildRun ∈ (Exec b w).1)
    (huid : b.uid < 2 ^ 32) (hgid : b.gid < 2 ^ 32) :
    (Exec b w).1.filter isAppPluginEvent = [Event.subProcess b.uid b.gid]
    ∧ (Exec b w).1.filter isPrivDropEvent = [] := by
  rw [exec_nonempty_stack hread hsg] at hreach ⊢
  unfold buildAll at hreach ⊢
  rcases h1 : verifyBuildpackApis w.supportedAPI g with f1 | u
  · rw [h1] at hreach
    simp at hreach
  · cases u
    rw [h1] at hreach
    dsimp only at hreach ⊢
    rcases h2 : verifyBuildpackApis w.supportedAPI sg with f2 | u2
    · rw [h2] at hreach
      simp at hreach
    · cases u2
      rw [h2] at hreach
      dsimp only at hreach ⊢
      rcases h3 : createBuilder b.tobuildArgs g sg p w with f3 | bd
      · rw [h3] at hreach
        simp at hreach
      · dsimp only
        rw [stackBuild_none hstack]
        dsimp only
        rw [if_pos (List.length_pos.mpr hg)]
        unfold buildAsSubProcess
        rw [hexe]
        dsimp only
        rw [Nat.mod_eq_of_lt huid, Nat.mod_eq_of_lt hgid]
        constructor
        · rcases h7 : w.subProcessRes with _ | e7 <;> simp [isAppPluginEvent]
        · rcases h7 : w.subProcessRes with _ | e7 <;> simp [isPrivDropEvent]

/-- C5 witness: the fully healthy two-group invocation launches the
delegate exactly once with uid/gid 1000/1000 and never drops privilege
in-process. -/
theorem c5_delegate_exactly_once_witness :
    (Exec okCmd okWorld).1.filter isAppPluginEvent = [Event.subProcess 1000 1000]
    ∧ (Exec okCmd okWorld).1.filter isPrivDropEvent = [] :=
  c5_delegate_exactly_once okCmd okWorld ⟨[{ id := "app-bp", api := ⟨0, 4⟩ }]⟩
    ⟨[{ id := "stack-bp", api := ⟨0, 4⟩ }]⟩ ⟨"plan"⟩ rfl (by simp) (by simp)
    rfl rfl (by decide) (by decide) (by decide)

/- ===================== C6: error classification ===================== -/

/-- C6: in both the stack-build stage and the app-build stage, a
plugin-reported failure (a `lifecycle.Error` of buildpack type) is
classified `CodeFailedBuildWithErrors` while any other error (such as
an I/O error) is classified `CodeBuildError`, and the two exit codes
are distinct. -/
theorem c6_error_classification (ba : buildArgs) (w1 w2 w3 w4 : World)
    (c1 m2 c3 m4 : String)
    (h1 : w1.stackBuildRes = some (.lifecycleErr .buildpack c1))
    (h2 : w2.stackBuildRes = some (.plainErr m2))
    (h3a : w3.runAsRes = none) (h3b : w3.setEnvRes = none)
    (h3 : w3.buildRes = .error (.lifecycleErr .buildpack c3))
    (h4a : w4.runAsRes = none) (h4b : w4.setEnvRes = none)
    (h4 : w4.buildRes = .error (.plainErr m4)) :
    (stackBuild w1).2 = .error (.failErrCode .codeFailedBuildWithErrors c1 "stack-build")
    ∧ (stackBuild w2).2 = .error (.failErrCode .codeBuildError m2 "stack-build")
    ∧ (build ba w3).2 = .error (.failErrCode .codeFailedBuildWithErrors c3 "build")
    ∧ (build ba w4).2 = .error (.failErrCode .codeBuildError m4 "build")
    ∧ ExitCode.codeFailedBuildWithErrors ≠ ExitCode.codeBuildError := by
  refine ⟨?_, ?_, ?_, ?_, by decide⟩
  · rw [stackBuild_some h1]
    rfl
  · rw [stackBuild_some h2]
    rfl
  · unfold build
    rw [h3a]
    dsimp only
    rw [h3b]
    dsimp only
    rw [h3]
    rfl
  · unfold build
    rw [h4a]
    dsimp only
    rw [h4b]
    dsimp only
    rw [h4]
    rfl

/-- C6 witness: concrete environments exercising all four
classifications. -/
theorem c6_error_classification_witness :
    (stackBuild { okWorld with
        stackBuildRes := some (.lifecycleErr .buildpack "bp-fail") }).2
      = .error (.failErrCode .codeFailedBuildWithErrors "bp-fail" "stack-build")
    ∧ (stackBuild { okWorld with stackBuildRes := some (.plainErr "io-fail") }).2
      = .error (.failErrCode .codeBuildError "io-fail" "stack-build")
    ∧ (build okCmd.tobuildArgs { okWorld with
        buildRes := .error (.lifecycleErr .buildpack "bp-fail2") }).2
      = .error (.failErrCode .codeFailedBuildWithErrors "bp-fail2" "build")
    ∧ (build okCmd.tobuildArgs { okWorld with
        buildRes := .error (.plainErr "io-fail2") }).2
      = .error (.failErrCode .codeBuildError "io-fail2" "build")
    ∧ ExitCode.codeFailedBuildWithErrors ≠ ExitCode.codeBuildError :=
  c6_error_classification okCmd.tobuildArgs _ _ _ _ "bp-fail" "io-fail" "bp-fail2" "io-fail2"
    rfl rfl rfl rfl rfl rfl rfl rfl
